import Mathlib

/-!
Shallow embedding of `diglet.py` (tjt263/diglet): a sequential batch DNS
querying script.

The network side (`dns.resolver.Resolver.resolve`) is abstracted as an
oracle `Dispatch`: given the domain, the resolver IP, the record type and
the attempt index, it yields the classified result of that one call.
Everything downstream of that call is translated from the Python source:

* `fetchLoop` / `fetchRun` / `fetch_dns` / `fetchCalls` embed
  `fetch_dns(domain, resolver_ip, record_type, retries)` (src lines 38-47):
  a `for attempt in range(retries + 1)` loop that returns the textual
  answers when `resolver.resolve` returns (with `rrset` truthy), returns
  `[]` when it returns with `rrset` falsy, and on ANY exception either
  retries (same resolver) or, on the last attempt, returns `[]`.
  dnspython raises `NXDOMAIN` even with `raise_on_no_answer=False`, so an
  authoritative negative answer takes the exception path.
* `knownTypes`, `buildRecord`, `resolveGo`, `resolve_records` embed
  `resolve_records(domains, resolvers, record_types)` (src lines 89-170):
  for each input domain at index `i`, pin `resolvers[i % len(resolvers)]`,
  then for each of the 37 hard-coded record types present in
  `record_types` (checked in source order) add a key computed by
  `fetch_dns` at the pinned resolver with the default budget `retries=2`.
-/

/-- Classified result of one call to `resolver.resolve(domain, record_type,
raise_on_no_answer=False, lifetime=5.0)`.

* `success rrset`: the call returned an answer object; `rrset = some rs`
  models a truthy `answers.rrset` whose entries print as `rs`, and
  `rrset = none` models a falsy `answers.rrset` (NoAnswer suppressed by
  `raise_on_no_answer=False`).
* `nxdomain`: the call raised `dns.resolver.NXDOMAIN` (authoritative
  non-existence; NOT suppressed by `raise_on_no_answer=False`).
* `transientError`: the call raised any other exception (timeout,
  transport error, malformed response, bad name, ...). -/
inductive DispatchResult where
  | success (rrset : Option (List String))
  | nxdomain
  | transientError
deriving DecidableEq, Repr

/-- The query oracle: domain, resolver IP, record type, attempt index. -/
def Dispatch : Type := String → String → String → Nat → DispatchResult

/-- Whether a dispatch result takes the `except Exception` path of
`fetch_dns` (both an authoritative NXDOMAIN and a transient error do). -/
def raisesB : DispatchResult → Bool
  | DispatchResult.success _ => false
  | DispatchResult.nxdomain => true
  | DispatchResult.transientError => true

/-- The body of the `for attempt in range(retries + 1)` loop of `fetch_dns`,
over the list of remaining attempt indices.  Returns the value `fetch_dns`
returns (`none` models Python falling off the loop and returning `None`)
paired with the number of dispatcher calls made.  On a result that raises,
the source returns `[]` when `attempt == retries` and otherwise continues
with the next attempt. -/
def fetchLoop (dispatch : Nat → DispatchResult) (retries : Nat) :
    List Nat → Option (List String) × Nat
  | [] => (none, 0)
  | attempt :: rest =>
    match dispatch attempt with
    | DispatchResult.success (some rs) => (some rs, 1)
    | DispatchResult.success none => (some [], 1)
    | DispatchResult.nxdomain =>
      if attempt = retries then (some [], 1)
      else
        let r := fetchLoop dispatch retries rest
        (r.1, r.2 + 1)
    | DispatchResult.transientError =>
      if attempt = retries then (some [], 1)
      else
        let r := fetchLoop dispatch retries rest
        (r.1, r.2 + 1)

/-- `fetch_dns(domain, resolver_ip, record_type, retries)` together with its
dispatcher-call count: the loop runs over `range(retries + 1)`. -/
def fetchRun (dispatch : Dispatch) (domain resolver_ip record_type : String)
    (retries : Nat) : Option (List String) × Nat :=
  fetchLoop (fun attempt => dispatch domain resolver_ip record_type attempt)
    retries (List.range (retries + 1))

/-- The value returned by `fetch_dns` (`none` would model returning `None`). -/
def fetch_dns (dispatch : Dispatch) (domain resolver_ip record_type : String)
    (retries : Nat) : Option (List String) :=
  (fetchRun dispatch domain resolver_ip record_type retries).1

/-- How many dispatcher calls one `fetch_dns` invocation performs. -/
def fetchCalls (dispatch : Dispatch) (domain resolver_ip record_type : String)
    (retries : Nat) : Nat :=
  (fetchRun dispatch domain resolver_ip record_type retries).2

/-- The 37 record types hard-coded in `resolve_records`, in the order their
`if rtype in record_types` checks appear in the source (lines 96-169). -/
def knownTypes : List String :=
  ["A", "AAAA", "AFSDB", "APL", "CAA", "CDNSKEY", "CDS", "CERT", "CNAME",
   "DHCID", "DLV", "DNAME", "DNSKEY", "DS", "HIP", "IPSECKEY", "KEY", "KX",
   "LOC", "MX", "NAPTR", "NS", "NSEC", "NSEC3", "NSEC3PARAM", "PTR", "RP",
   "RRSIG", "SIG", "SOA", "SRV", "SSHFP", "TLSA", "TSIG", "TXT", "URI",
   "ZONEMD"]

/-- One yielded `record` dict: the `"domain"` and `"resolver"` values plus
the record-type keys in insertion order. -/
structure DomainRecord where
  domain : String
  resolver : String
  entries : List (String × Option (List String))
deriving DecidableEq, Repr, Inhabited

/-- The body of `resolve_records` for one domain: build the `record` dict.
Each of the 37 `if rtype in record_types: record[rtype] = fetch_<rtype>(...)`
statements adds key `rtype` mapped to
`fetch_dns(domain, resolver_ip, rtype)` with the default `retries=2`;
the checks run in `knownTypes` order. -/
def buildRecord (dispatch : Dispatch) (domain resolver_ip : String)
    (record_types : List String) : DomainRecord :=
  { domain := domain
    resolver := resolver_ip
    entries :=
      (knownTypes.filter (fun t => decide (t ∈ record_types))).map
        (fun t => (t, fetch_dns dispatch domain resolver_ip t 2)) }

/-- The `for i, domain in enumerate(domains)` loop of `resolve_records`,
carrying the running index `i`: each domain is pinned to
`resolvers[i % len(resolvers)]` (the `getD` default is never used when the
pool is nonempty, since `i % len < len`). -/
def resolveGo (dispatch : Dispatch) (resolvers record_types : List String) :
    Nat → List String → List DomainRecord
  | _, [] => []
  | i, domain :: rest =>
    buildRecord dispatch domain (resolvers.getD (i % resolvers.length) "")
        record_types
      :: resolveGo dispatch resolvers record_types (i + 1) rest

/-- `resolve_records(domains, resolvers, record_types)`, fully evaluated.
With an empty resolver list and at least one domain, the source raises an
uncaught `ZeroDivisionError` at `resolvers[i % len(resolvers)]` on the
first domain, modelled as `Except.error ()`; with no domains the generator
yields nothing and no error occurs. -/
def resolve_records (dispatch : Dispatch)
    (domains resolvers record_types : List String) :
    Except Unit (List DomainRecord) :=
  if resolvers.isEmpty then
    if domains.isEmpty then Except.ok [] else Except.error ()
  else
    Except.ok (resolveGo dispatch resolvers record_types 0 domains)

/-! ## Helper lemmas -/

/-- The loop's outcome depends on the dispatcher only at the attempted
indices. -/
theorem fetchLoop_congr (d1 d2 : Nat → DispatchResult) (retries : Nat) :
    ∀ attempts : List Nat, (∀ a ∈ attempts, d1 a = d2 a) →
      fetchLoop d1 retries attempts = fetchLoop d2 retries attempts := by
  intro attempts
  induction attempts with
  | nil => intro _; rfl
  | cons attempt rest ih =>
    intro h
    have hhead : d1 attempt = d2 attempt := h attempt (by simp)
    have htail : ∀ a ∈ rest, d1 a = d2 a := fun a ha => h a (by simp [ha])
    cases h2 : d2 attempt with
    | success rrset => cases rrset <;> simp [fetchLoop, hhead, h2]
    | nxdomain => simp [fetchLoop, hhead, h2, ih htail]
    | transientError => simp [fetchLoop, hhead, h2, ih htail]

/-- If every attempted dispatch raises, the loop walks past every attempt
before `retries`, returns `[]` at attempt `retries`, and counts one call
per walked attempt. -/
theorem fetchLoop_raises (d : Nat → DispatchResult) (retries : Nat) :
    ∀ l : List Nat, (∀ a ∈ l, raisesB (d a) = true) →
      raisesB (d retries) = true → retries ∉ l →
      fetchLoop d retries (l ++ [retries]) = (some [], l.length + 1) := by
  intro l
  induction l with
  | nil =>
    intro _ hlast _
    cases hd : d retries with
    | success rrset => rw [hd] at hlast; simp [raisesB] at hlast
    | nxdomain => simp [fetchLoop, hd]
    | transientError => simp [fetchLoop, hd]
  | cons x l2 ih =>
    intro hall hlast hnotmem
    have hx : raisesB (d x) = true := hall x (by simp)
    have h1 : retries ≠ x := by
      intro he; exact hnotmem (by simp [he])
    have h2 : retries ∉ l2 := by
      intro he; exact hnotmem (by simp [he])
    have hxr : x ≠ retries := fun he => h1 he.symm
    have hrec := ih (fun a ha => hall a (by simp [ha])) hlast h2
    cases hd : d x with
    | success rrset => rw [hd] at hx; simp [raisesB] at hx
    | nxdomain => simp [fetchLoop, hd, hxr, hrec]
    | transientError => simp [fetchLoop, hd, hxr, hrec]

/-- As long as the final attempt index `retries` is among the attempts, the
loop returns a value: the fall-through (`None`) case is unreachable. -/
theorem fetchLoop_mem_some (d : Nat → DispatchResult) (retries : Nat) :
    ∀ attempts : List Nat, retries ∈ attempts →
      ∃ rs, (fetchLoop d retries attempts).1 = some rs := by
  intro attempts
  induction attempts with
  | nil => intro h; simp at h
  | cons attempt rest ih =>
    intro h
    cases hd : d attempt with
    | success rrset =>
      cases rrset with
      | some rs => exact ⟨rs, by simp [fetchLoop, hd]⟩
      | none => exact ⟨[], by simp [fetchLoop, hd]⟩
    | nxdomain =>
      by_cases he : attempt = retries
      · subst he; exact ⟨[], by simp [fetchLoop, hd]⟩
      · have hrest : retries ∈ rest := by
          rcases List.mem_cons.mp h with h1 | h1
          · exact absurd h1.symm he
          · exact h1
        obtain ⟨rs, hrs⟩ := ih hrest
        exact ⟨rs, by simp [fetchLoop, hd, he, hrs]⟩
    | transientError =>
      by_cases he : attempt = retries
      · subst he; exact ⟨[], by simp [fetchLoop, hd]⟩
      · have hrest : retries ∈ rest := by
          rcases List.mem_cons.mp h with h1 | h1
          · exact absurd h1.symm he
          · exact h1
        obtain ⟨rs, hrs⟩ := ih hrest
        exact ⟨rs, by simp [fetchLoop, hd, he, hrs]⟩

/-- When every attempt of a unit raises — whether with NXDOMAIN or a
transient error — `fetch_dns` returns `[]` after exactly `retries + 1`
dispatcher calls. -/
theorem fetchRun_raises (dispatch : Dispatch) (dom res t : String)
    (retries : Nat) (h : ∀ a, raisesB (dispatch dom res t a) = true) :
    fetchRun dispatch dom res t retries = (some [], retries + 1) := by
  unfold fetchRun
  rw [List.range_succ]
  have hres := fetchLoop_raises (fun a => dispatch dom res t a) retries
    (List.range retries) (fun a _ => h a) (h retries) (by simp)
  rw [hres, List.length_range]

/-- `fetch_dns` depends on the dispatcher only at its own
(domain, resolver, type) triple. -/
theorem fetch_dns_congr (d1 d2 : Dispatch) (dom res t : String)
    (retries : Nat) (h : ∀ a, d1 dom res t a = d2 dom res t a) :
    fetch_dns d1 dom res t retries = fetch_dns d2 dom res t retries := by
  unfold fetch_dns fetchRun
  rw [fetchLoop_congr (fun a => d1 dom res t a) (fun a => d2 dom res t a)
    retries (List.range (retries + 1)) (fun a _ => h a)]

/-- The keys of a built record are the known types present in the request,
in source order. -/
theorem buildRecord_keys (dispatch : Dispatch) (dom res : String)
    (types : List String) :
    (buildRecord dispatch dom res types).entries.map Prod.fst
      = knownTypes.filter (fun t => decide (t ∈ types)) := by
  simp [buildRecord, List.map_map, Function.comp_def]

/-- A record depends on the dispatcher only at its own pinned resolver. -/
theorem buildRecord_congr (d1 d2 : Dispatch) (dom res : String)
    (types : List String) (h : ∀ t a, d1 dom res t a = d2 dom res t a) :
    buildRecord d1 dom res types = buildRecord d2 dom res types := by
  unfold buildRecord
  congr 1
  apply List.map_congr_left
  intro t _
  rw [fetch_dns_congr d1 d2 dom res t 2 (h t)]

/-- The loop yields exactly one record per input domain, in input order,
carrying that domain. -/
theorem resolveGo_map_domain (dispatch : Dispatch)
    (resolvers types : List String) :
    ∀ (j : Nat) (domains : List String),
      (resolveGo dispatch resolvers types j domains).map DomainRecord.domain
        = domains := by
  intro j domains
  induction domains generalizing j with
  | nil => rfl
  | cons d rest ih => simp [resolveGo, buildRecord, ih]

/-- The `i`-th record of the loop started at index `j` is built from the
`i`-th domain and the resolver pinned by `(j + i) % pool size`. -/
theorem resolveGo_getD (dispatch : Dispatch) (resolvers types : List String) :
    ∀ (domains : List String) (j i : Nat), i < domains.length →
      (resolveGo dispatch resolvers types j domains).getD i default
        = buildRecord dispatch (domains.getD i "")
            (resolvers.getD ((j + i) % resolvers.length) "") types := by
  intro domains
  induction domains with
  | nil => intro j i h; simp at h
  | cons d rest ih =>
    intro j i h
    cases i with
    | zero => simp [resolveGo]
    | succ i2 =>
      have h2 : i2 < rest.length := by simpa using h
      have hrec := ih (j + 1) i2 h2
      have harith : j + 1 + i2 = j + (i2 + 1) := by omega
      rw [harith] at hrec
      simpa [resolveGo] using hrec

/-- Every record the loop yields is a built record for the requested
types. -/
theorem resolveGo_mem (dispatch : Dispatch) (resolvers types : List String) :
    ∀ (j : Nat) (domains : List String) (r : DomainRecord),
      r ∈ resolveGo dispatch resolvers types j domains →
      ∃ dom res, r = buildRecord dispatch dom res types := by
  intro j domains
  induction domains generalizing j with
  | nil => intro r h; simp [resolveGo] at h
  | cons d rest ih =>
    intro r h
    simp only [resolveGo, List.mem_cons] at h
    rcases h with h1 | h1
    · exact ⟨d, _, h1⟩
    · exact ih (j + 1) r h1

/-- With a nonempty resolver pool, `resolve_records` never errors: it is the
loop started at index 0. -/
theorem resolve_records_ok (dispatch : Dispatch)
    (domains resolvers types : List String) (hr : resolvers ≠ []) :
    resolve_records dispatch domains resolvers types
      = Except.ok (resolveGo dispatch resolvers types 0 domains) := by
  unfold resolve_records
  simp [hr]

/-! ## Claims -/

/-- C1 counterexample: with a dispatcher whose every invocation — the first
included — returns the authoritative NXDOMAIN result, `fetch_dns` at the
default budget performs 3 dispatcher calls, not the single call the claim
requires: the `except Exception` clause treats NXDOMAIN like any failure
and retries it. -/
theorem negAnswer_first_call_not_single :
    fetchCalls (fun _ _ _ _ => DispatchResult.nxdomain)
      "example.com" "1.1.1.1" "A" 2 = 3 ∧ (3 : Nat) ≠ 1 :=
  ⟨rfl, by decide⟩

/-- C1 (amended): dnspython raises `NXDOMAIN` even with
`raise_on_no_answer=False`, and `fetch_dns` catches every exception alike,
so a unit whose attempts all get an authoritative negative answer is
retried through the whole budget: `retries + 1` dispatcher calls against
the same resolver, returning `[]` (the same value as an empty Answer). -/
theorem negAnswer_retried_full_budget (dispatch : Dispatch)
    (dom res t : String) (retries : Nat)
    (h : ∀ a, dispatch dom res t a = DispatchResult.nxdomain) :
    fetch_dns dispatch dom res t retries = some [] ∧
    fetchCalls dispatch dom res t retries = retries + 1 := by
  have hra : ∀ a, raisesB (dispatch dom res t a) = true := by
    intro a; rw [h a]; rfl
  have hr := fetchRun_raises dispatch dom res t retries hra
  exact ⟨by unfold fetch_dns; rw [hr], by unfold fetchCalls; rw [hr]⟩

/-- C1 witness: the amended claim at the all-NXDOMAIN dispatcher with the
default budget of 2 retries. -/
theorem negAnswer_retried_full_budget_witness :
    fetch_dns (fun _ _ _ _ => DispatchResult.nxdomain)
        "example.com" "1.1.1.1" "A" 2 = some [] ∧
    fetchCalls (fun _ _ _ _ => DispatchResult.nxdomain)
        "example.com" "1.1.1.1" "A" 2 = 3 :=
  negAnswer_retried_full_budget (fun _ _ _ _ => DispatchResult.nxdomain)
    "example.com" "1.1.1.1" "A" 2 (fun _ => rfl)

/-- C2 counterexample: with every invocation a transient failure and the
default budget, `fetch_dns` returns exactly the same value `some []` as a
dispatcher that immediately returns an empty Answer — there is no distinct
`Failure(Exhausted)` outcome anywhere in the interface — and it performs 3
calls to its one pinned resolver, though the claim bounds the calls by a
pool size of 1 when the pool is smaller than the budget. -/
theorem transient_exhaustion_not_distinct :
    fetch_dns (fun _ _ _ _ => DispatchResult.transientError)
        "example.com" "1.1.1.1" "A" 2 = some [] ∧
    fetch_dns (fun _ _ _ _ => DispatchResult.success none)
        "example.com" "1.1.1.1" "A" 2 = some [] ∧
    fetchCalls (fun _ _ _ _ => DispatchResult.transientError)
        "example.com" "1.1.1.1" "A" 2 = 3 :=
  ⟨rfl, rfl, rfl⟩

/-- C2 (amended): a unit whose every attempt fails transiently returns the
empty list — indistinguishable from an empty Answer — after exactly
`retries + 1` dispatcher calls, all against its one pinned resolver; the
resolver pool plays no role inside a unit. -/
theorem transient_exhaustion_returns_empty (dispatch : Dispatch)
    (dom res t : String) (retries : Nat)
    (h : ∀ a, dispatch dom res t a = DispatchResult.transientError) :
    fetch_dns dispatch dom res t retries = some [] ∧
    fetchCalls dispatch dom res t retries = retries + 1 := by
  have hra : ∀ a, raisesB (dispatch dom res t a) = true := by
    intro a; rw [h a]; rfl
  have hr := fetchRun_raises dispatch dom res t retries hra
  exact ⟨by unfold fetch_dns; rw [hr], by unfold fetchCalls; rw [hr]⟩

/-- C2 witness: the amended claim at the all-transient dispatcher with the
default budget of 2 retries. -/
theorem transient_exhaustion_returns_empty_witness :
    fetch_dns (fun _ _ _ _ => DispatchResult.transientError)
        "example.com" "1.1.1.1" "A" 2 = some [] ∧
    fetchCalls (fun _ _ _ _ => DispatchResult.transientError)
        "example.com" "1.1.1.1" "A" 2 = 3 :=
  transient_exhaustion_returns_empty
    (fun _ _ _ _ => DispatchResult.transientError)
    "example.com" "1.1.1.1" "A" 2 (fun _ => rfl)

/-- C3 counterexample: pool `["9.9.9.9", "8.8.8.8"]`, first resolver always
transient-fails, second would answer `["93.184.216.34"]`; the sole domain
is pinned to the first resolver, gets `A ↦ []` after 3 calls to it, and
the claimed advance to the second resolver with its answer after exactly 2
calls never happens. -/
theorem two_resolver_rotation_fails :
    resolve_records
        (fun _ res _ _ => if res = "9.9.9.9" then DispatchResult.transientError
          else DispatchResult.success (some ["93.184.216.34"]))
        ["example.com"] ["9.9.9.9", "8.8.8.8"] ["A"]
      = Except.ok [⟨"example.com", "9.9.9.9", [("A", some [])]⟩] ∧
    fetchCalls
        (fun _ res _ _ => if res = "9.9.9.9" then DispatchResult.transientError
          else DispatchResult.success (some ["93.184.216.34"]))
        "example.com" "9.9.9.9" "A" 2 = 3 ∧
    some ([] : List String) ≠ some ["93.184.216.34"] :=
  ⟨rfl, rfl, by simp⟩

/-- C3 (amended): `fetch_dns` never rotates resolvers — a unit only ever
queries the resolver its domain is pinned to.  In the two-resolver
scenario the single domain (index 0) is pinned to the first resolver; when
that resolver always fails transiently the run returns `A ↦ []` for it,
whatever the second resolver would have answered. -/
theorem pinned_resolver_never_advances (dispatch : Dispatch)
    (h : ∀ a, dispatch "example.com" "9.9.9.9" "A" a
        = DispatchResult.transientError) :
    resolve_records dispatch ["example.com"] ["9.9.9.9", "8.8.8.8"] ["A"]
      = Except.ok [⟨"example.com", "9.9.9.9", [("A", some [])]⟩] := by
  have hra : ∀ a, raisesB (dispatch "example.com" "9.9.9.9" "A" a) = true := by
    intro a; rw [h a]; rfl
  have hfetch : fetch_dns dispatch "example.com" "9.9.9.9" "A" 2 = some [] := by
    unfold fetch_dns
    rw [fetchRun_raises dispatch "example.com" "9.9.9.9" "A" 2 hra]
  have hshape : resolve_records dispatch ["example.com"]
      ["9.9.9.9", "8.8.8.8"] ["A"]
      = Except.ok [⟨"example.com", "9.9.9.9",
          [("A", fetch_dns dispatch "example.com" "9.9.9.9" "A" 2)]⟩] := rfl
  rw [hshape, hfetch]

/-- C3 witness: the amended claim at the dispatcher whose first resolver
always fails transiently and whose second would answer. -/
theorem pinned_resolver_never_advances_witness :
    resolve_records
        (fun _ res _ _ => if res = "8.8.8.8"
          then DispatchResult.success (some ["93.184.216.34"])
          else DispatchResult.transientError)
        ["example.com"] ["9.9.9.9", "8.8.8.8"] ["A"]
      = Except.ok [⟨"example.com", "9.9.9.9", [("A", some [])]⟩] :=
  pinned_resolver_never_advances
    (fun _ res _ _ => if res = "8.8.8.8"
      then DispatchResult.success (some ["93.184.216.34"])
      else DispatchResult.transientError)
    (fun _ => rfl)

/-- C4 counterexample: requesting only the type `"FOO"`, which is outside
the hard-coded table, yields a finished record whose key set is empty
rather than `{"FOO"}` — no key for an unknown requested type is ever
added. -/
theorem unknown_type_key_missing :
    resolve_records (fun _ _ _ _ => DispatchResult.transientError)
        ["a.com"] ["1.1.1.1"] ["FOO"]
      = Except.ok [⟨"a.com", "1.1.1.1", []⟩] ∧
    ¬ "FOO" ∈ ([] : List (String × Option (List String))).map Prod.fst :=
  ⟨rfl, by simp⟩

/-- C4 (amended): the key set of every finished record is the intersection
of the requested types with the 37 hard-coded known types — requested
identifiers outside that table are silently dropped. -/
theorem record_keys_known_intersection (dispatch : Dispatch)
    (domains resolvers types : List String) (hr : resolvers ≠ []) :
    ∃ rs, resolve_records dispatch domains resolvers types = Except.ok rs ∧
      ∀ r ∈ rs, ∀ t : String,
        t ∈ r.entries.map Prod.fst ↔ (t ∈ knownTypes ∧ t ∈ types) := by
  refine ⟨_, resolve_records_ok dispatch domains resolvers types hr, ?_⟩
  intro r hrmem t
  obtain ⟨dom, res, hbuild⟩ :=
    resolveGo_mem dispatch resolvers types 0 domains r hrmem
  subst hbuild
  rw [buildRecord_keys]
  simp [List.mem_filter]

/-- C4 witness: the amended claim with one domain and the mixed request
`["A", "FOO"]`. -/
theorem record_keys_known_intersection_witness :
    ∃ rs, resolve_records (fun _ _ _ _ => DispatchResult.success none)
        ["a.com"] ["1.1.1.1"] ["A", "FOO"] = Except.ok rs ∧
      ∀ r ∈ rs, ∀ t : String,
        t ∈ r.entries.map Prod.fst
          ↔ (t ∈ knownTypes ∧ t ∈ (["A", "FOO"] : List String)) :=
  record_keys_known_intersection (fun _ _ _ _ => DispatchResult.success none)
    ["a.com"] ["1.1.1.1"] ["A", "FOO"] (by decide)

/-- C5 counterexample: the duplicated input `["a.com", "a.com"]` yields two
records, both for `a.com` — duplicates are not merged into one record, so
the output domain sequence is not the deduplicated input. -/
theorem duplicate_domains_not_merged :
    resolve_records (fun _ _ _ _ => DispatchResult.success none)
        ["a.com", "a.com"] ["1.1.1.1"] []
      = Except.ok [⟨"a.com", "1.1.1.1", []⟩, ⟨"a.com", "1.1.1.1", []⟩] ∧
    ([⟨"a.com", "1.1.1.1", []⟩, ⟨"a.com", "1.1.1.1", []⟩]
        : List DomainRecord).map DomainRecord.domain ≠ ["a.com"] :=
  ⟨rfl, by decide⟩

/-- C5 (amended): the output domain sequence equals the input domain list
exactly — one record per input entry, duplicates preserved in place, no
merging. -/
theorem output_domains_eq_input (dispatch : Dispatch)
    (domains resolvers types : List String) (hr : resolvers ≠ []) :
    ∃ rs, resolve_records dispatch domains resolvers types = Except.ok rs ∧
      rs.map DomainRecord.domain = domains :=
  ⟨_, resolve_records_ok dispatch domains resolvers types hr,
    resolveGo_map_domain dispatch resolvers types 0 domains⟩

/-- C5 witness: the amended claim on the duplicated two-entry input. -/
theorem output_domains_eq_input_witness :
    ∃ rs, resolve_records (fun _ _ _ _ => DispatchResult.success none)
        ["a.com", "a.com"] ["1.1.1.1"] [] = Except.ok rs ∧
      rs.map DomainRecord.domain = ["a.com", "a.com"] :=
  output_domains_eq_input (fun _ _ _ _ => DispatchResult.success none)
    ["a.com", "a.com"] ["1.1.1.1"] [] (by decide)

/-- C6 counterexample: with the unknown requested type `"ZZZ"` the run does
not abort with a configuration error — it completes normally, silently
ignoring the unknown identifier. -/
theorem unknown_type_not_config_error :
    resolve_records (fun _ _ _ _ => DispatchResult.success none)
        ["a.com"] ["1.1.1.1"] ["ZZZ"]
      = Except.ok [⟨"a.com", "1.1.1.1", []⟩] ∧
    (Except.ok [(⟨"a.com", "1.1.1.1", []⟩ : DomainRecord)]
        : Except Unit (List DomainRecord)) ≠ Except.error () :=
  ⟨rfl, fun h => Except.noConfusion h⟩

/-- C6 (amended): there is no startup validation.  An unknown record type
never aborts the run (whatever the requested types, a nonempty pool gives
a normal result); an empty resolver pool fails only once the first domain
is processed — an uncaught ZeroDivisionError, not a reported
configuration error — and with no domains it is not detected at all. -/
theorem config_error_behavior (dispatch : Dispatch)
    (domains resolvers types : List String) :
    (resolvers ≠ [] →
      ∃ rs, resolve_records dispatch domains resolvers types
        = Except.ok rs) ∧
    (resolvers = [] → domains = [] →
      resolve_records dispatch domains resolvers types = Except.ok []) ∧
    (resolvers = [] → domains ≠ [] →
      resolve_records dispatch domains resolvers types
        = Except.error ()) := by
  refine ⟨fun hr =>
    ⟨_, resolve_records_ok dispatch domains resolvers types hr⟩, ?_, ?_⟩
  · intro h1 h2; subst h1; subst h2; rfl
  · intro h1 h2
    subst h1
    unfold resolve_records
    simp [h2]

/-- C6 witness: an empty pool with one domain gives the modelled
ZeroDivisionError, by the third clause of the amended claim. -/
theorem config_error_behavior_witness :
    resolve_records (fun _ _ _ _ => DispatchResult.success none)
        ["a.com"] [] ["A"] = Except.error () :=
  (config_error_behavior (fun _ _ _ _ => DispatchResult.success none)
    ["a.com"] [] ["A"]).2.2 rfl (by decide)

/-- C7: with a nonempty resolver pool (an empty pool is the separate
configuration failure), the run always completes with one record per
input domain in input order, even when every dispatcher invocation raises:
each failure is absorbed inside `fetch_dns` and lands in the record as the
value `some []`, and nothing propagates across domains. -/
theorem run_completes_under_total_failure (dispatch : Dispatch)
    (domains resolvers types : List String) (hr : resolvers ≠ [])
    (hfail : ∀ dom res t a, raisesB (dispatch dom res t a) = true) :
    ∃ rs, resolve_records dispatch domains resolvers types = Except.ok rs ∧
      rs.map DomainRecord.domain = domains ∧
      ∀ r ∈ rs, ∀ p ∈ r.entries, p.2 = some [] := by
  refine ⟨_, resolve_records_ok dispatch domains resolvers types hr,
    resolveGo_map_domain dispatch resolvers types 0 domains, ?_⟩
  intro r hrmem p hpmem
  obtain ⟨dom, res, hbuild⟩ :=
    resolveGo_mem dispatch resolvers types 0 domains r hrmem
  subst hbuild
  simp only [buildRecord, List.mem_map] at hpmem
  obtain ⟨t, _, hpt⟩ := hpmem
  have hf : fetch_dns dispatch dom res t 2 = some [] := by
    unfold fetch_dns
    rw [fetchRun_raises dispatch dom res t 2 (fun a => hfail dom res t a)]
  rw [← hpt]
  exact hf

/-- C7 witness: two domains, one resolver, one type, every invocation a
transient failure — the run still yields both records with `A ↦ []`. -/
theorem run_completes_under_total_failure_witness :
    ∃ rs, resolve_records (fun _ _ _ _ => DispatchResult.transientError)
        ["a.com", "b.com"] ["1.1.1.1"] ["A"] = Except.ok rs ∧
      rs.map DomainRecord.domain = ["a.com", "b.com"] ∧
      ∀ r ∈ rs, ∀ p ∈ r.entries, p.2 = some [] :=
  run_completes_under_total_failure
    (fun _ _ _ _ => DispatchResult.transientError)
    ["a.com", "b.com"] ["1.1.1.1"] ["A"] (by decide) (fun _ _ _ _ => rfl)

/-- C8: per-domain pinning.  The record at position `i` carries the
resolver `resolvers[i % len(resolvers)]` in its resolver field, and the
whole record is unchanged under any modification of the dispatcher away
from that pinned resolver — every query for the domain goes to it. -/
theorem per_domain_pinning (dispatch dispatch2 : Dispatch)
    (domains resolvers types : List String) (i : Nat)
    (hi : i < domains.length) (hr : resolvers ≠ [])
    (hagree : ∀ dom t a,
      dispatch2 dom (resolvers.getD (i % resolvers.length) "") t a
        = dispatch dom (resolvers.getD (i % resolvers.length) "") t a) :
    ∃ rs rs2,
      resolve_records dispatch domains resolvers types = Except.ok rs ∧
      resolve_records dispatch2 domains resolvers types = Except.ok rs2 ∧
      (rs.getD i default).resolver
        = resolvers.getD (i % resolvers.length) "" ∧
      rs2.getD i default = rs.getD i default := by
  refine ⟨_, _, resolve_records_ok dispatch domains resolvers types hr,
    resolve_records_ok dispatch2 domains resolvers types hr, ?_, ?_⟩
  · rw [resolveGo_getD dispatch resolvers types domains 0 i hi]
    simp [buildRecord]
  · rw [resolveGo_getD dispatch resolvers types domains 0 i hi,
      resolveGo_getD dispatch2 resolvers types domains 0 i hi]
    have hcongr := buildRecord_congr dispatch2 dispatch (domains.getD i "")
      (resolvers.getD (i % resolvers.length) "") types
      (fun t a => hagree (domains.getD i "") t a)
    simpa using hcongr

/-- C8 witness: three domains over a two-resolver pool; the record at
index 2 is pinned to the pool's first resolver (2 mod 2 = 0), and a
dispatcher differing only at the second resolver leaves it unchanged. -/
theorem per_domain_pinning_witness :
    ∃ rs rs2,
      resolve_records (fun _ _ _ _ => DispatchResult.success none)
          ["a.com", "b.com", "c.com"] ["1.1.1.1", "8.8.8.8"] ["A"]
        = Except.ok rs ∧
      resolve_records
          (fun _ res _ _ => if res = "8.8.8.8"
            then DispatchResult.transientError
            else DispatchResult.success none)
          ["a.com", "b.com", "c.com"] ["1.1.1.1", "8.8.8.8"] ["A"]
        = Except.ok rs2 ∧
      (rs.getD 2 default).resolver
        = (["1.1.1.1", "8.8.8.8"] : List String).getD (2 % 2) "" ∧
      rs2.getD 2 default = rs.getD 2 default :=
  per_domain_pinning (fun _ _ _ _ => DispatchResult.success none)
    (fun _ res _ _ => if res = "8.8.8.8"
      then DispatchResult.transientError
      else DispatchResult.success none)
    ["a.com", "b.com", "c.com"] ["1.1.1.1", "8.8.8.8"] ["A"] 2
    (by decide) (by decide) (fun _ _ _ => rfl)

/-- C9: the pipeline is a pure sequential computation of its inputs — two
runs against dispatchers answering identically on every
(domain, resolver, type, attempt) query produce identical record
sequences. -/
theorem two_run_determinism (d1 d2 : Dispatch)
    (domains resolvers types : List String)
    (h : ∀ dom res t a, d1 dom res t a = d2 dom res t a) :
    resolve_records d1 domains resolvers types
      = resolve_records d2 domains resolvers types := by
  have hfun : d1 = d2 :=
    funext fun dom => funext fun res => funext fun t => funext fun a =>
      h dom res t a
  rw [hfun]

/-- C9 witness: two syntactically distinct but pointwise-equal fake
dispatchers give byte-identical runs. -/
theorem two_run_determinism_witness :
    resolve_records (fun _ _ _ _ => DispatchResult.success (some ["x"]))
        ["a.com"] ["1.1.1.1"] ["A"]
      = resolve_records
          (fun _ _ _ a => if a = a then DispatchResult.success (some ["x"])
            else DispatchResult.nxdomain)
          ["a.com"] ["1.1.1.1"] ["A"] :=
  two_run_determinism (fun _ _ _ _ => DispatchResult.success (some ["x"]))
    (fun _ _ _ a => if a = a then DispatchResult.success (some ["x"])
      else DispatchResult.nxdomain)
    ["a.com"] ["1.1.1.1"] ["A"] (fun _ _ _ a => by simp)

/-- C10: `fetch_dns` is total at its interface for every budget
`retries ≥ 0`: the loop always returns before falling through, so the
result is always `some` list — never the `none` that would model Python
returning `None` — and every raised exception is absorbed by the
`except` branch inside the loop. -/
theorem fetch_dns_total (dispatch : Dispatch) (dom res t : String)
    (retries : Nat) :
    ∃ rs : List String, fetch_dns dispatch dom res t retries = some rs := by
  unfold fetch_dns fetchRun
  exact fetchLoop_mem_some (fun a => dispatch dom res t a) retries
    (List.range (retries + 1)) (by simp)
